import Mathlib

/-!
Verification of the AURA.IA live-session engine (`src/components/LiveInterface.tsx`).

The development shallowly embeds the state and operations of the
real-time streaming session manager: the playback scheduler
(`nextStartTimeRef` / `sourcesRef`), the flush primitive (the
`interrupted` branch of `onmessage` and the sleep branch of
`setSleepState`), the voice-command dispatch of `onmessage`, the video
toggle and frame-sampling timer, the resource lifecycle of
`connectToLive` / `cleanup`, and the mute guard of
`processor.onaudioprocess`.  Times are modelled as rationals; machine
timer ids as naturals.
-/

namespace Aura

/-! ## Playback scheduler (LiveInterface.tsx lines 22-23, 340-370) -/

/-- Scheduler state: `nextStartTime` embeds `nextStartTimeRef.current`
(the virtual playback timeline position) and `inflight` embeds
`sourcesRef.current`, the set of in-flight `AudioBufferSourceNode`
handles (represented by numeric ids). -/
structure SchedState where
  nextStartTime : ℚ
  inflight : List ℕ
deriving DecidableEq, Repr

/-- Embeds the audio-scheduling body of `onmessage` (lines 343-362):
`nextStartTimeRef.current = Math.max(nextStartTimeRef.current, ctx.currentTime)`;
`source.start(nextStartTimeRef.current)`;
`nextStartTimeRef.current += buffer.duration`;
`sourcesRef.current.add(source)`.
`now` is `ctx.currentTime` as sampled by the handler, `d` is
`buffer.duration`, `hid` the fresh handle.  Returns the new state and
the start time passed to `source.start`. -/
def enqueueChunk (s : SchedState) (now d : ℚ) (hid : ℕ) : SchedState × ℚ :=
  let startAt := max s.nextStartTime now
  ({ nextStartTime := startAt + d, inflight := hid :: s.inflight }, startAt)

/-- Embeds the guard on line 341: audio is scheduled only when the
session holds a decoded chunk and `!isSleepModeRef.current`; when
asleep the chunk is dropped and nothing is scheduled. -/
def onAudioData (sleeping : Bool) (s : SchedState) (now d : ℚ) (hid : ℕ) :
    SchedState × Option ℚ :=
  if sleeping then (s, none)
  else ((enqueueChunk s now d hid).1, some (enqueueChunk s now d hid).2)

/-- Runs a sequence of chunks `(now, duration)` through the scheduler,
returning the list of `(scheduledStart, duration)` pairs. -/
def runSched : SchedState → List (ℚ × ℚ) → List (ℚ × ℚ)
  | _, [] => []
  | s, (now, d) :: rest =>
      ((enqueueChunk s now d 0).2, d) :: runSched (enqueueChunk s now d 0).1 rest

/-- Each chunk after the head of the list arrives no later than the end
of the previously scheduled chunk (its `now` is at most the scheduler's
current `nextStartTime`): the chunks arrive faster than real time. -/
def arrivesFastAux : SchedState → List (ℚ × ℚ) → Bool
  | _, [] => true
  | s, (now, d) :: rest =>
      decide (now ≤ s.nextStartTime) && arrivesFastAux (enqueueChunk s now d 0).1 rest

/-- A chunk sequence arrives faster than real time from state `s`: the
first chunk is unconstrained, each later one arrives before the
previous scheduled chunk has finished playing. -/
def arrivesFast (s : SchedState) : List (ℚ × ℚ) → Bool
  | [] => true
  | (now, d) :: rest => arrivesFastAux (enqueueChunk s now d 0).1 rest

/-- Every scheduled interval starts exactly at `e` and the next one at
its end: the schedule is a gapless chain from `e`. -/
def chainFrom (e : ℚ) : List (ℚ × ℚ) → Bool
  | [] => true
  | (st, d) :: rest => decide (st = e) && chainFrom (st + d) rest

/-- Consecutive scheduled intervals are contiguous: each one ends
exactly where the next begins. -/
def backToBack : List (ℚ × ℚ) → Bool
  | [] => true
  | [_] => true
  | (st1, d1) :: (st2, d2) :: rest =>
      decide (st2 = st1 + d1) && backToBack ((st2, d2) :: rest)

/-- Scheduled start times are monotonically non-decreasing. -/
def startsMono : List (ℚ × ℚ) → Bool
  | [] => true
  | [_] => true
  | (st1, _) :: (st2, d2) :: rest =>
      decide (st1 ≤ st2) && startsMono ((st2, d2) :: rest)

/-! ## Flush (lines 366-370 and 72-78) -/

/-- Embeds the flush primitive, the common body of the `interrupted`
branch of `onmessage` (lines 367-369) and of the sleep branch of
`setSleepState` (lines 75-77):
`sourcesRef.current.forEach(s => s.stop()); sourcesRef.current.clear();
nextStartTimeRef.current = 0;`.  Returns the new state and the list of
handles on which `.stop()` was called. -/
def flush (s : SchedState) : SchedState × List ℕ :=
  ({ nextStartTime := 0, inflight := [] }, s.inflight)

/-- Embeds the `msg.serverContent?.interrupted` branch of `onmessage`. -/
def onInterrupted (s : SchedState) : SchedState × List ℕ :=
  flush s

/-- Embeds `setSleepState` (lines 65-83) restricted to its effect on
the scheduler state: a redundant update (`isSleepModeRef.current ===
sleep`) returns early; entering sleep flushes; waking only plays the
activation sound. -/
def setSleepStateSched (wasSleeping sleep : Bool) (s : SchedState) :
    SchedState × List ℕ :=
  if wasSleeping = sleep then (s, [])
  else if sleep then flush s
  else (s, [])

/-! ## Scheduler lemmas -/

theorem enqueueChunk_eq (s : SchedState) (now d : ℚ) (hid : ℕ) :
    enqueueChunk s now d hid =
      ({ nextStartTime := max s.nextStartTime now + d,
         inflight := hid :: s.inflight }, max s.nextStartTime now) := rfl

theorem chainFrom_of_arrivesFastAux (l : List (ℚ × ℚ)) :
    ∀ s : SchedState, arrivesFastAux s l = true →
      chainFrom s.nextStartTime (runSched s l) = true := by
  induction l with
  | nil => intro s _; rfl
  | cons hd tl ih =>
      intro s h
      obtain ⟨now, d⟩ := hd
      simp only [arrivesFastAux, Bool.and_eq_true, decide_eq_true_eq] at h
      obtain ⟨hle, hrest⟩ := h
      simp only [runSched, chainFrom, Bool.and_eq_true, decide_eq_true_eq]
      have hstart : (enqueueChunk s now d 0).2 = s.nextStartTime := by
        simp [enqueueChunk, max_eq_left hle]
      have hnext : (enqueueChunk s now d 0).1.nextStartTime =
          s.nextStartTime + d := by
        simp [enqueueChunk, max_eq_left hle]
      refine ⟨hstart, ?_⟩
      have := ih (enqueueChunk s now d 0).1 hrest
      rw [hnext] at this
      rw [hstart]
      exact this

theorem backToBack_of_chainFrom (l : List (ℚ × ℚ)) :
    ∀ e : ℚ, chainFrom e l = true → backToBack l = true := by
  induction l with
  | nil => intro e _; rfl
  | cons hd tl ih =>
      intro e h
      obtain ⟨st, d⟩ := hd
      simp only [chainFrom, Bool.and_eq_true, decide_eq_true_eq] at h
      obtain ⟨hst, hrest⟩ := h
      cases tl with
      | nil => rfl
      | cons hd2 tl2 =>
          obtain ⟨st2, d2⟩ := hd2
          simp only [backToBack, Bool.and_eq_true, decide_eq_true_eq]
          have h2 := hrest
          simp only [chainFrom, Bool.and_eq_true, decide_eq_true_eq] at h2
          exact ⟨h2.1.trans (by rw [hst]) , ih (st + d) hrest⟩

theorem startsMono_of_backToBack (l : List (ℚ × ℚ)) :
    backToBack l = true → (∀ p ∈ l, 0 ≤ p.2) → startsMono l = true := by
  induction l with
  | nil => intro _ _; rfl
  | cons hd tl ih =>
      intro h hd0
      obtain ⟨st, d⟩ := hd
      cases tl with
      | nil => rfl
      | cons hd2 tl2 =>
          obtain ⟨st2, d2⟩ := hd2
          simp only [backToBack, Bool.and_eq_true, decide_eq_true_eq] at h
          simp only [startsMono, Bool.and_eq_true, decide_eq_true_eq]
          have hd' : 0 ≤ d := hd0 (st, d) (by simp)
          refine ⟨h.1 ▸ le_add_of_nonneg_right hd', ?_⟩
          exact ih h.2 (fun p hp => hd0 p (List.mem_cons_of_mem _ hp))

theorem chainFrom_runSched (s : SchedState) (chunks : List (ℚ × ℚ))
    (hf : arrivesFast s chunks = true) :
    backToBack (runSched s chunks) = true := by
  cases chunks with
  | nil => rfl
  | cons hd rest =>
      obtain ⟨now, d⟩ := hd
      have hfast : arrivesFastAux (enqueueChunk s now d 0).1 rest = true := hf
      have hchain := chainFrom_of_arrivesFastAux rest _ hfast
      have hnext : (enqueueChunk s now d 0).1.nextStartTime =
          (enqueueChunk s now d 0).2 + d := by
        simp [enqueueChunk]
      rw [hnext] at hchain
      refine backToBack_of_chainFrom _ ((enqueueChunk s now d 0).2) ?_
      simp only [runSched, chainFrom, Bool.and_eq_true, decide_eq_true_eq]
      exact ⟨by simp, hchain⟩

/-- C1: for every inbound audio chunk processed while awake the handler
sets `startAt = max(nextStartTime, now)`, schedules at `startAt` and
sets `nextStartTime = startAt + d`; over any chunk sequence with
non-negative durations arriving faster than real time the scheduled
starts are monotonically non-decreasing and consecutive intervals are
contiguous (each ends exactly where the next begins), hence
non-overlapping. -/
theorem scheduler_gapless (s : SchedState) (chunks : List (ℚ × ℚ))
    (hd : ∀ p ∈ chunks, 0 ≤ p.2)
    (hf : arrivesFast s chunks = true) :
    (∀ (t : SchedState) (now d : ℚ) (hid : ℕ),
        onAudioData false t now d hid =
          ({ nextStartTime := max t.nextStartTime now + d,
             inflight := hid :: t.inflight }, some (max t.nextStartTime now))) ∧
    backToBack (runSched s chunks) = true ∧
    startsMono (runSched s chunks) = true := by
  have hbb := chainFrom_runSched s chunks hf
  refine ⟨fun t now d hid => rfl, hbb, ?_⟩
  refine startsMono_of_backToBack _ hbb ?_
  intro p hp
  have : ∀ (t : SchedState) (l : List (ℚ × ℚ)),
      (∀ q ∈ l, 0 ≤ q.2) → ∀ r ∈ runSched t l, 0 ≤ r.2 := by
    intro t l
    induction l generalizing t with
    | nil => intro _ r hr; simp [runSched] at hr
    | cons hd2 tl ih =>
        intro hq r hr
        obtain ⟨now, d⟩ := hd2
        simp only [runSched, List.mem_cons] at hr
        rcases hr with h | h
        · subst h; exact hq (now, d) (by simp)
        · exact ih _ (fun q hmem => hq q (List.mem_cons_of_mem _ hmem)) r h
  exact this s chunks hd p hp

/-- Witness for `scheduler_gapless`: two chunks of durations 1/2 and
3/10, the second arriving at time 1/10 (faster than real time). -/
theorem scheduler_gapless_witness :
    ((∀ p ∈ [((0 : ℚ), (1/2 : ℚ)), ((1/10 : ℚ), (3/10 : ℚ))], 0 ≤ p.2) ∧
      arrivesFast ⟨0, []⟩ [((0 : ℚ), (1/2 : ℚ)), ((1/10 : ℚ), (3/10 : ℚ))] = true) ∧
    ((∀ (t : SchedState) (now d : ℚ) (hid : ℕ),
        onAudioData false t now d hid =
          ({ nextStartTime := max t.nextStartTime now + d,
             inflight := hid :: t.inflight }, some (max t.nextStartTime now))) ∧
      backToBack (runSched ⟨0, []⟩ [((0 : ℚ), (1/2 : ℚ)), ((1/10 : ℚ), (3/10 : ℚ))]) = true ∧
      startsMono (runSched ⟨0, []⟩ [((0 : ℚ), (1/2 : ℚ)), ((1/10 : ℚ), (3/10 : ℚ))]) = true) := by
  have h1 : ∀ p ∈ [((0 : ℚ), (1/2 : ℚ)), ((1/10 : ℚ), (3/10 : ℚ))], 0 ≤ p.2 := by
    intro p hp
    simp only [List.mem_cons, List.not_mem_nil, or_false] at hp
    rcases hp with h | h <;> subst h <;> norm_num
  have h2 : arrivesFast ⟨0, []⟩ [((0 : ℚ), (1/2 : ℚ)), ((1/10 : ℚ), (3/10 : ℚ))] = true := by
    simp only [arrivesFast, arrivesFastAux, enqueueChunk, Bool.and_eq_true,
      decide_eq_true_eq]
    norm_num
  exact ⟨⟨h1, h2⟩, scheduler_gapless ⟨0, []⟩ _ h1 h2⟩

/-- C2: after a flush — the `interrupted` branch of `onmessage` or
entering SLEEP via `setSleepState` — every in-flight handle has been
stopped, the in-flight set is empty and `nextStartTime = 0`, for any
prior state; flushing again leaves the state unchanged and stops
nothing. -/
theorem flush_resets_and_idempotent (s : SchedState) :
    (flush s).2 = s.inflight ∧
    (flush s).1.inflight = [] ∧
    (flush s).1.nextStartTime = 0 ∧
    flush (flush s).1 = ((flush s).1, []) ∧
    onInterrupted s = flush s ∧
    setSleepStateSched false true s = flush s := by
  refine ⟨rfl, rfl, rfl, rfl, rfl, ?_⟩
  simp [setSleepStateSched]

/-! ## Voice-command dispatch (lines 310-337) -/

/-- The two video sources of `videoSource` / `videoSourceRef`. -/
inductive VidSrc
  | camera
  | screen
deriving DecidableEq, Repr

/-- `seqStarts n h` holds when the character sequence `n` begins the
sequence `h`. -/
def seqStarts : List Char → List Char → Bool
  | [], _ => true
  | _ :: _, [] => false
  | a :: as, b :: bs => a == b && seqStarts as bs

/-- `hasSub n h = true` iff `n` occurs as a contiguous subsequence of
`h`: the embedding of JavaScript `h.includes(n)` on the character
level. -/
def hasSub (needle : List Char) : List Char → Bool
  | [] => seqStarts needle []
  | c :: t => seqStarts needle (c :: t) || hasSub needle t

/-- `command.includes(p)` for a lowercased transcript `command`. -/
def includesPhrase (command p : String) : Bool :=
  hasSub p.data command.data

/-- `command` contains at least one of the phrases `ps`. -/
def includesAny (command : String) (ps : List String) : Bool :=
  ps.any (fun p => includesPhrase command p)

/-- Wake vocabulary of line 316. -/
def wakePhrases : List String := ["aura", "acordar", "ativar", "oi"]

/-- Sleep vocabulary of line 322. -/
def sleepPhrases : List String := ["silenciar", "modo de espera", "dormir"]

/-- Camera-open vocabulary of line 327. -/
def cameraPhrases : List String := ["abrir câmera", "ligar câmera"]

/-- Screen-share vocabulary of line 330. -/
def screenPhrases : List String := ["compartilhar tela", "mostrar tela"]

/-- Video-close vocabulary of line 333. -/
def closePhrases : List String := ["fechar vídeo", "parar vídeo", "parar tela"]

/-- The session-level action a transcript fragment produces. -/
inductive CmdAction
  | wake
  | sleep
  | pend (v : VidSrc)
  | closeVideo
  | none
deriving DecidableEq, Repr

/-- Embeds the transcript branch of `onmessage` (lines 310-337) as a
function of the sleep flag (`isSleepModeRef.current`), the active
video source (`videoSourceRef.current`) and the lowercased transcript
(`command = userTranscript.toLowerCase()`).  The branch structure is
the source's if/else chain: when asleep only wake phrases are checked;
when awake the sleep check comes first, then camera, screen and close
commands, each guarded by the current video source. -/
def interpretTranscript (sleeping : Bool) (vid : Option VidSrc)
    (command : String) : CmdAction :=
  if sleeping then
    if includesAny command wakePhrases then .wake else .none
  else
    if includesAny command sleepPhrases then .sleep
    else if includesAny command cameraPhrases then
      if vid ≠ some .camera then .pend .camera else .none
    else if includesAny command screenPhrases then
      if vid ≠ some .screen then .pend .screen else .none
    else if includesAny command closePhrases then
      if vid.isSome then .closeVideo else .none
    else .none

/-- The slice of session state the transcript branch mutates:
`isSleepModeRef` / `setIsSleepMode`, `pendingAction`, and
`videoSourceRef` / `setVideoSource` (through `stopVideoStream`). -/
structure CmdState where
  sleeping : Bool
  pending : Option VidSrc
  vid : Option VidSrc
deriving DecidableEq, Repr

/-- Effect of the transcript branch on the session state: `wake` and
`sleep` call `setSleepState`, a video command calls
`setPendingAction`, a close command calls `stopVideoStream`, and
`none` leaves everything untouched. -/
def applyTranscript (st : CmdState) (command : String) : CmdState :=
  match interpretTranscript st.sleeping st.vid command with
  | .wake => { st with sleeping := false }
  | .sleep => { st with sleeping := true }
  | .pend v => { st with pending := some v }
  | .closeVideo => { st with vid := Option.none }
  | .none => st

/-- C4: a transcript received while asleep that contains no wake
phrase produces no action at all — the interpreter yields `none`, and
the sleep flag, the pending video request and the active video source
are all unchanged. -/
theorem asleep_nonwake_is_noop (st : CmdState) (command : String)
    (hs : st.sleeping = true)
    (hw : includesAny command wakePhrases = false) :
    interpretTranscript st.sleeping st.vid command = CmdAction.none ∧
    applyTranscript st command = st := by
  constructor
  · simp [interpretTranscript, hs, hw]
  · simp [applyTranscript, interpretTranscript, hs, hw]

/-- Witness for `asleep_nonwake_is_noop`: the transcript
"ligar câmera" while asleep. -/
theorem asleep_nonwake_is_noop_witness :
    ((⟨true, Option.none, Option.none⟩ : CmdState).sleeping = true ∧
      includesAny "ligar câmera" wakePhrases = false) ∧
    (interpretTranscript (⟨true, Option.none, Option.none⟩ : CmdState).sleeping
        (⟨true, Option.none, Option.none⟩ : CmdState).vid "ligar câmera" = CmdAction.none ∧
      applyTranscript ⟨true, Option.none, Option.none⟩ "ligar câmera" =
        ⟨true, Option.none, Option.none⟩) :=
  ⟨⟨rfl, by decide⟩,
    asleep_nonwake_is_noop ⟨true, Option.none, Option.none⟩ "ligar câmera" rfl (by decide)⟩

/-- C5: a transcript received while awake that contains a sleep phrase
makes the session sleep — the interpreter yields `sleep` (so in
particular no video action), whatever else the text matches; the only
state change is the sleep flag. -/
theorem awake_sleep_phrase_sleeps (st : CmdState) (command : String)
    (ha : st.sleeping = false)
    (hm : includesAny command sleepPhrases = true) :
    interpretTranscript st.sleeping st.vid command = CmdAction.sleep ∧
    applyTranscript st command = { st with sleeping := true } := by
  constructor
  · simp [interpretTranscript, ha, hm]
  · simp [applyTranscript, interpretTranscript, ha, hm]

/-- Witness for `awake_sleep_phrase_sleeps`: the transcript
"aura, vamos dormir" while awake with no video active. -/
theorem awake_sleep_phrase_sleeps_witness :
    ((⟨false, Option.none, Option.none⟩ : CmdState).sleeping = false ∧
      includesAny "aura, vamos dormir" sleepPhrases = true) ∧
    (interpretTranscript (⟨false, Option.none, Option.none⟩ : CmdState).sleeping
        (⟨false, Option.none, Option.none⟩ : CmdState).vid "aura, vamos dormir" =
        CmdAction.sleep ∧
      applyTranscript ⟨false, Option.none, Option.none⟩ "aura, vamos dormir" =
        ⟨true, Option.none, Option.none⟩) :=
  ⟨⟨rfl, by decide⟩,
    awake_sleep_phrase_sleeps ⟨false, Option.none, Option.none⟩ "aura, vamos dormir"
      rfl (by decide)⟩

/-! ## Video stream and frame-sampling timer (lines 86-100, 125-159, 162-223) -/

/-- Video subsystem state: `vid` embeds `videoSourceRef.current`,
`hasStream` whether `streamRef.current` is non-null, `liveTracks` the
number of live tracks of that stream, `frameIntervalRef` the interval
id stored in `frameIntervalRef.current`, `installed` the set of
interval timers currently installed in the page (ids handed out from
`nextId`, as `window.setInterval` hands out fresh ids). -/
structure VideoState where
  vid : Option VidSrc
  hasStream : Bool
  liveTracks : ℕ
  frameIntervalRef : Option ℕ
  installed : List ℕ
  nextId : ℕ
deriving DecidableEq, Repr

/-- Embeds `stopVideoStream` (lines 86-100): clears the frame interval
if one is referenced, stops every track of `streamRef.current` and
drops the stream, detaches the video element, and resets
`videoSource` / `videoSourceRef` to null. -/
def stopVideoStream (s : VideoState) : VideoState :=
  let s1 := match s.frameIntervalRef with
    | some i => { s with installed := s.installed.erase i, frameIntervalRef := Option.none }
    | Option.none => s
  let s2 := if s1.hasStream then { s1 with liveTracks := 0, hasStream := false } else s1
  { s2 with vid := Option.none }

/-- Embeds `startFrameTransmission` (lines 125-159): any previously
referenced interval is cleared first; if the canvas context or the
session to use is unavailable the function returns without installing
anything; otherwise one fresh interval timer is installed and its id
stored in `frameIntervalRef`. -/
def startFrameTransmission (s : VideoState) (canvasOk sessionOk : Bool) :
    VideoState :=
  let s1 := match s.frameIntervalRef with
    | some i => { s with installed := s.installed.erase i }
    | Option.none => s
  if canvasOk = false then s1
  else if sessionOk = false then s1
  else { s1 with frameIntervalRef := some s1.nextId,
                 installed := s1.nextId :: s1.installed,
                 nextId := s1.nextId + 1 }

/-- Embeds `toggleVideo` (lines 162-223) on its success path: if the
requested source is already active the stream is stopped and no device
request is issued; otherwise a device open request for `ty` is issued
(returned flag), the previous stream's tracks are stopped and replaced
by the acquired stream with `newTracks` tracks, the source is set,
and, when already connected, `startFrameTransmission` runs (with
`canvasOk`/`sessionOk` reflecting the canvas and session
availability). -/
def toggleVideo (s : VideoState) (ty : VidSrc) (newTracks : ℕ)
    (connected canvasOk sessionOk : Bool) : VideoState × Bool :=
  if s.vid = some ty then (stopVideoStream s, false)
  else
    let s1 := { s with liveTracks := newTracks, hasStream := true, vid := some ty }
    ((if connected then startFrameTransmission s1 canvasOk sessionOk else s1), true)

/-- Well-formedness of the video state: at most one interval timer is
installed, every installed timer is the one referenced by
`frameIntervalRef`, and a dropped stream has no live tracks. -/
def videoInv (s : VideoState) : Bool :=
  decide (s.installed.length ≤ 1) &&
  s.installed.all (fun i => decide (s.frameIntervalRef = some i)) &&
  (s.hasStream || decide (s.liveTracks = 0))

theorem inv_fields (s : VideoState) (h : videoInv s = true) :
    s.installed.length ≤ 1 ∧ (∀ i ∈ s.installed, s.frameIntervalRef = some i) ∧
      (s.hasStream = true ∨ s.liveTracks = 0) := by
  simp only [videoInv, Bool.and_eq_true, Bool.or_eq_true, List.all_eq_true,
    decide_eq_true_eq] at h
  exact ⟨h.1.1, h.1.2, h.2⟩

theorem inv_clear_installed (s : VideoState) (h : videoInv s = true) :
    (match s.frameIntervalRef with
      | some i => s.installed.erase i
      | Option.none => s.installed) = [] := by
  obtain ⟨hlen, href, _⟩ := inv_fields s h
  rcases hri : s.frameIntervalRef with _ | i
  · cases hinst : s.installed with
    | nil => simp
    | cons a t =>
        have := href a (by rw [hinst]; simp)
        rw [hri] at this; cases this
  · cases hinst : s.installed with
    | nil => simp
    | cons a t =>
        cases t with
        | nil =>
            have := href a (by rw [hinst]; simp)
            rw [hri] at this
            have ha : a = i := by
              have := Option.some.inj this; omega
            simp [ha, List.erase_cons]
        | cons b t2 => rw [hinst] at hlen; simp at hlen

/-- Under the invariant, `stopVideoStream` fully resets the video
subsystem: no source, no stream, no live track, no referenced and no
installed timer. -/
theorem stopVideoStream_spec (s : VideoState) (h : videoInv s = true) :
    stopVideoStream s =
      ⟨Option.none, false, 0, Option.none, [], s.nextId⟩ := by
  obtain ⟨hlen, href, htr⟩ := inv_fields s h
  have hclear := inv_clear_installed s h
  obtain ⟨vid, hstr, lt, fir, inst, nid⟩ := s
  rcases fir with _ | i
  · simp only at hclear
    rcases hstr
    · have hlt : lt = 0 := by
        rcases htr with h' | h'
        · cases h'
        · exact h'
      subst hlt
      simp [stopVideoStream, hclear]
    · simp [stopVideoStream, hclear]
  · simp only at hclear
    rcases hstr
    · have hlt : lt = 0 := by
        rcases htr with h' | h'
        · cases h'
        · exact h'
      subst hlt
      simp [stopVideoStream, hclear]
    · simp [stopVideoStream, hclear]

/-- Under the invariant, `startFrameTransmission` first empties the
installed-timer set and then installs exactly one fresh timer when the
canvas and session are available, none otherwise. -/
theorem startFrameTransmission_spec (s : VideoState) (canvasOk sessionOk : Bool)
    (h : videoInv s = true) :
    startFrameTransmission s canvasOk sessionOk =
      if canvasOk && sessionOk then
        ⟨s.vid, s.hasStream, s.liveTracks, some s.nextId, [s.nextId], s.nextId + 1⟩
      else
        ⟨s.vid, s.hasStream, s.liveTracks, s.frameIntervalRef, [], s.nextId⟩ := by
  have hclear := inv_clear_installed s h
  obtain ⟨vid, hstr, lt, fir, inst, nid⟩ := s
  rcases fir with _ | i <;> simp only at hclear <;>
    rcases canvasOk <;> rcases sessionOk <;>
      simp [startFrameTransmission, hclear]

theorem videoInv_reset (nid : ℕ) :
    videoInv ⟨Option.none, false, 0, Option.none, [], nid⟩ = true := by
  simp [videoInv]

/-- C10: at most one frame-sampling timer ever exists —
`startFrameTransmission` clears any previously installed interval
before possibly installing a single new one and preserves the video
invariant, as does `toggleVideo`; and `stopVideoStream` leaves no
installed timer, no referenced timer, no live track and no stream, so
after video is stopped no timer tick can fire against a closed
source. -/
theorem videoInv_cleared (v : Option VidSrc) (hstr : Bool) (lt : ℕ)
    (fir : Option ℕ) (nid : ℕ) (htr : hstr = true ∨ lt = 0) :
    videoInv ⟨v, hstr, lt, fir, [], nid⟩ = true := by
  rcases htr with h | h <;> subst h <;> simp [videoInv]

theorem videoInv_installed (v : Option VidSrc) (hstr : Bool) (lt : ℕ)
    (nid : ℕ) (htr : hstr = true ∨ lt = 0) :
    videoInv ⟨v, hstr, lt, some nid, [nid], nid + 1⟩ = true := by
  rcases htr with h | h <;> subst h <;> simp [videoInv]

/-- C10: at most one frame-sampling timer ever exists —
`startFrameTransmission` clears any previously installed interval
before possibly installing a single new one and preserves the video
invariant, as does `toggleVideo`; and `stopVideoStream` leaves no
installed timer, no referenced timer, no live track and no stream, so
after video is stopped no timer tick can fire against a closed
source. -/
theorem frame_timer_at_most_one (s : VideoState)
    (canvasOk sessionOk connected : Bool) (ty : VidSrc) (newTracks : ℕ)
    (h : videoInv s = true) :
    videoInv (startFrameTransmission s canvasOk sessionOk) = true ∧
    (startFrameTransmission s canvasOk sessionOk).installed.length ≤ 1 ∧
    videoInv (toggleVideo s ty newTracks connected canvasOk sessionOk).1 = true ∧
    videoInv (stopVideoStream s) = true ∧
    (stopVideoStream s).installed = [] ∧
    (stopVideoStream s).frameIntervalRef = Option.none ∧
    (stopVideoStream s).liveTracks = 0 ∧
    (stopVideoStream s).hasStream = false := by
  obtain ⟨hlen, href, htr⟩ := inv_fields s h
  have hstop := stopVideoStream_spec s h
  have hsf := startFrameTransmission_spec s canvasOk sessionOk h
  have hsfInv : videoInv (startFrameTransmission s canvasOk sessionOk) = true ∧
      (startFrameTransmission s canvasOk sessionOk).installed.length ≤ 1 := by
    rw [hsf]
    rcases canvasOk && sessionOk
    · rw [if_neg (by simp)]
      exact ⟨videoInv_cleared _ _ _ _ _ htr, by simp⟩
    · rw [if_pos rfl]
      exact ⟨videoInv_installed _ _ _ _ htr, by simp⟩
  refine ⟨hsfInv.1, hsfInv.2, ?_, by rw [hstop]; exact videoInv_reset _,
    by rw [hstop], by rw [hstop], by rw [hstop], by rw [hstop]⟩
  unfold toggleVideo
  by_cases hvt : s.vid = some ty
  · rw [if_pos hvt, hstop]
    exact videoInv_reset _
  · rw [if_neg hvt]
    have h1 : videoInv ⟨some ty, true, newTracks, s.frameIntervalRef, s.installed, s.nextId⟩ = true := by
      simp only [videoInv, Bool.and_eq_true, Bool.or_eq_true, List.all_eq_true, decide_eq_true_eq]
      exact ⟨⟨hlen, href⟩, Or.inl (by simp)⟩
    have hupd : { s with liveTracks := newTracks, hasStream := true, vid := some ty } =
        (⟨some ty, true, newTracks, s.frameIntervalRef, s.installed, s.nextId⟩ : VideoState) := rfl
    rcases connected
    · simpa [hupd] using h1
    · simp only [if_pos, hupd]
      have h2 := startFrameTransmission_spec _ canvasOk sessionOk h1
      rw [h2]
      rcases canvasOk && sessionOk
      · rw [if_neg (by simp)]
        exact videoInv_cleared _ _ _ _ _ (Or.inl rfl)
      · rw [if_pos rfl]
        exact videoInv_installed _ _ _ _ (Or.inl rfl)

/-- Witness for `frame_timer_at_most_one`: a state with one installed
timer referenced by the ref and a camera stream with two live
tracks. -/
theorem frame_timer_at_most_one_witness :
    videoInv ⟨some VidSrc.camera, true, 2, some 5, [5], 6⟩ = true ∧
    (videoInv (startFrameTransmission ⟨some VidSrc.camera, true, 2, some 5, [5], 6⟩ true true) = true ∧
     (startFrameTransmission ⟨some VidSrc.camera, true, 2, some 5, [5], 6⟩ true true).installed.length ≤ 1 ∧
     videoInv (toggleVideo ⟨some VidSrc.camera, true, 2, some 5, [5], 6⟩ VidSrc.screen 1 true true true).1 = true ∧
     videoInv (stopVideoStream ⟨some VidSrc.camera, true, 2, some 5, [5], 6⟩) = true ∧
     (stopVideoStream ⟨some VidSrc.camera, true, 2, some 5, [5], 6⟩).installed = [] ∧
     (stopVideoStream ⟨some VidSrc.camera, true, 2, some 5, [5], 6⟩).frameIntervalRef = Option.none ∧
     (stopVideoStream ⟨some VidSrc.camera, true, 2, some 5, [5], 6⟩).liveTracks = 0 ∧
     (stopVideoStream ⟨some VidSrc.camera, true, 2, some 5, [5], 6⟩).hasStream = false) :=
  ⟨by decide,
    frame_timer_at_most_one ⟨some VidSrc.camera, true, 2, some 5, [5], 6⟩
      true true true VidSrc.screen 1 (by decide)⟩

/-- A pending-video action is only ever emitted for a source that is
not already the active one: the guards on lines 328 and 331 check
`videoSourceRef.current !== ...` before `setPendingAction`. -/
theorem pend_only_if_not_active (sl : Bool) (vid : Option VidSrc)
    (command : String) (v : VidSrc)
    (h : interpretTranscript sl vid command = CmdAction.pend v) :
    vid ≠ some v := by
  unfold interpretTranscript at h
  split_ifs at h <;> simp_all

/-- C7 (amended): on the UI `toggleVideo` path, requesting the
already-active source turns the video off — the stream is stopped,
the frame timer cleared, the active source set to none — and no
device open request is issued; `toggleVideo` issues an open request
only when the requested source is not the active one; and on the
spoken-command path a pending open is only ever emitted for a source
that is not already active.  (The spoken path does NOT toggle the
video off: see the counterexample to the claim as stated.) -/
theorem video_request_idempotent (s : VideoState) (ty : VidSrc)
    (newTracks : ℕ) (connected canvasOk sessionOk : Bool)
    (sl : Bool) (vid : Option VidSrc) (command : String) (v : VidSrc)
    (hact : s.vid = some ty) (hinv : videoInv s = true) :
    toggleVideo s ty newTracks connected canvasOk sessionOk =
      (stopVideoStream s, false) ∧
    stopVideoStream s = ⟨Option.none, false, 0, Option.none, [], s.nextId⟩ ∧
    (∀ t : VideoState, (toggleVideo t ty newTracks connected canvasOk sessionOk).2 = true →
      t.vid ≠ some ty) ∧
    (interpretTranscript sl vid command = CmdAction.pend v → vid ≠ some v) := by
  refine ⟨?_, stopVideoStream_spec s hinv, ?_, pend_only_if_not_active sl vid command v⟩
  · unfold toggleVideo
    rw [if_pos hact]
  · intro t ht
    intro hc
    unfold toggleVideo at ht
    rw [if_pos hc] at ht
    cases ht

/-- Witness for `video_request_idempotent`: the camera is active with
one installed frame timer; a camera request is issued by UI and
"ligar câmera" is spoken. -/
theorem video_request_idempotent_witness :
    ((⟨some VidSrc.camera, true, 1, some 3, [3], 4⟩ : VideoState).vid = some VidSrc.camera ∧
      videoInv ⟨some VidSrc.camera, true, 1, some 3, [3], 4⟩ = true) ∧
    (toggleVideo ⟨some VidSrc.camera, true, 1, some 3, [3], 4⟩ VidSrc.camera 1 true true true =
        (stopVideoStream ⟨some VidSrc.camera, true, 1, some 3, [3], 4⟩, false) ∧
      stopVideoStream ⟨some VidSrc.camera, true, 1, some 3, [3], 4⟩ =
        ⟨Option.none, false, 0, Option.none, [], 4⟩ ∧
      (∀ t : VideoState, (toggleVideo t VidSrc.camera 1 true true true).2 = true →
        t.vid ≠ some VidSrc.camera) ∧
      (interpretTranscript false (some VidSrc.camera) "ligar câmera" =
          CmdAction.pend VidSrc.camera → (some VidSrc.camera : Option VidSrc) ≠ some VidSrc.camera)) :=
  ⟨⟨rfl, by decide⟩,
    video_request_idempotent ⟨some VidSrc.camera, true, 1, some 3, [3], 4⟩
      VidSrc.camera 1 true true true false (some VidSrc.camera) "ligar câmera"
      VidSrc.camera rfl (by decide)⟩

/-- Counterexample to C7 as stated: the spoken command "ligar câmera"
received while the camera is already the active source yields no
action at all — the interpreter returns `none` and the session state
(and in particular the active video source) is unchanged, so the video
is NOT turned off on the spoken video-command path. -/
theorem voice_open_active_source_not_off :
    interpretTranscript false (some VidSrc.camera) "ligar câmera" = CmdAction.none ∧
    applyTranscript ⟨false, Option.none, some VidSrc.camera⟩ "ligar câmera" =
      ⟨false, Option.none, some VidSrc.camera⟩ ∧
    (applyTranscript ⟨false, Option.none, some VidSrc.camera⟩ "ligar câmera").vid ≠
      (Option.none : Option VidSrc) := by
  refine ⟨by decide, by decide, by decide⟩

/-! ## Frame sampling tick (lines 136-158) -/

/-- The observable state of the `<video>` element read by the
frame-sampling interval callback. -/
structure VideoElem where
  paused : Bool
  ended : Bool
  videoWidth : ℕ
  videoHeight : ℕ
deriving DecidableEq, Repr

/-- Embeds the body of the 1-FPS `setInterval` callback of
`startFrameTransmission` (lines 136-158): the tick is skipped when the
video element is absent, paused or ended, or has no decoded data
(`videoWidth === 0`); otherwise the frame is drawn, JPEG-compressed
and sent via `session.sendRealtimeInput`.  The callback body contains
no check of `isSleepModeRef` (despite the inline comment on line 150),
so the decision cannot depend on the `sleeping` argument. -/
def frameTick (elem : Option VideoElem) (_sleeping : Bool) : Bool :=
  match elem with
  | Option.none => false
  | some v =>
      if v.paused || v.ended then false
      else if v.videoWidth = 0 then false
      else true

/-- C9: while the video element has decoded data (non-zero width, not
paused, not ended) a frame is sent on every tick, and the tick's
behaviour is identical whatever the sleep flag: entering SLEEP does
not suppress video-frame transmission. -/
theorem frame_tick_ignores_sleep (v : VideoElem) (sl : Bool)
    (h1 : v.paused = false) (h2 : v.ended = false) (h3 : v.videoWidth ≠ 0) :
    frameTick (some v) sl = true ∧
    (∀ (e : Option VideoElem) (b b' : Bool), frameTick e b = frameTick e b') := by
  constructor
  · simp [frameTick, h1, h2, h3]
  · intro e b b'
    cases e <;> rfl

/-- Witness for `frame_tick_ignores_sleep`: a playing 640×480 element
while the session is asleep. -/
theorem frame_tick_ignores_sleep_witness :
    ((⟨false, false, 640, 480⟩ : VideoElem).paused = false ∧
      (⟨false, false, 640, 480⟩ : VideoElem).ended = false ∧
      (⟨false, false, 640, 480⟩ : VideoElem).videoWidth ≠ 0) ∧
    (frameTick (some ⟨false, false, 640, 480⟩) true = true ∧
      (∀ (e : Option VideoElem) (b b' : Bool), frameTick e b = frameTick e b')) :=
  ⟨⟨rfl, rfl, by decide⟩,
    frame_tick_ignores_sleep ⟨false, false, 640, 480⟩ true rfl rfl (by decide)⟩

/-! ## Resource lifecycle (lines 103-123 and 225-399) -/

/-- The resources acquired by `connectToLive` and the observable error
channel: `sessionHandle` for `sessionRef.current`, `micStreamLive` for
the live tracks of the `micStream` obtained by
`getUserMedia({audio:true})` on line 243, `inputCtxOpen` /
`outputCtxOpen` for the two `AudioContext`s, `frameTimer` for the
frame-sampling interval, `videoStreamLive` for the video device
stream, `connected` for the `isConnected` flag and `errorMsg` for the
`error` state. -/
structure Resources where
  sessionHandle : Bool
  micStreamLive : Bool
  inputCtxOpen : Bool
  outputCtxOpen : Bool
  frameTimer : Bool
  videoStreamLive : Bool
  connected : Bool
  errorMsg : Option String
deriving DecidableEq, Repr

/-- The clean not-started state. -/
def initialRes : Resources :=
  ⟨false, false, false, false, false, false, false, Option.none⟩

/-- Embeds `cleanup` (lines 103-123): `stopVideoStream()` (clears the
frame interval and stops the video stream's tracks), `sessionRef :=
null`, `audioContextRef.close()`, `inputContextRef.close()`, clearing
the in-flight set and resetting the UI flags.  The function never
references the microphone `MediaStream` (`micStream` is a local of
`connectToLive` and no code in the file stops its tracks), so
`micStreamLive` is left untouched; `error` is also not cleared. -/
def cleanupRes (s : Resources) : Resources :=
  { s with frameTimer := false, videoStreamLive := false,
           sessionHandle := false, outputCtxOpen := false,
           inputCtxOpen := false, connected := false }

/-- Embeds `connectToLive` (lines 225-399) at the resource level:
`setError(null)`; if `process.env.API_KEY` is absent or empty the
`Error("API Key faltante.")` is thrown before anything is acquired and
the catch block sets the error message and runs `cleanup()`; otherwise
the output and input audio contexts are created, the microphone stream
is acquired and the transport session promise is stored. -/
def connectToLive (apiKey : Option String) (s : Resources) : Resources :=
  let s0 : Resources := { s with errorMsg := Option.none }
  if apiKey.getD "" = "" then
    cleanupRes { s0 with errorMsg := some "API Key faltante." }
  else
    { s0 with outputCtxOpen := true, inputCtxOpen := true,
              micStreamLive := true, sessionHandle := true }

/-- C8: with no API credential configured, `start()` sets the error
message "API Key faltante.", opens no transport session, acquires no
device, and leaves the system in the clean not-started state. -/
theorem start_without_key_clean_failure (k : Option String)
    (h : k.getD "" = "") :
    connectToLive k initialRes =
      { initialRes with errorMsg := some "API Key faltante." } ∧
    (connectToLive k initialRes).errorMsg = some "API Key faltante." ∧
    (connectToLive k initialRes).sessionHandle = false ∧
    (connectToLive k initialRes).micStreamLive = false ∧
    (connectToLive k initialRes).inputCtxOpen = false ∧
    (connectToLive k initialRes).outputCtxOpen = false ∧
    (connectToLive k initialRes).videoStreamLive = false ∧
    (connectToLive k initialRes).frameTimer = false := by
  simp [connectToLive, cleanupRes, initialRes, h]

/-- Witness for `start_without_key_clean_failure`: the credential is
absent. -/
theorem start_without_key_clean_failure_witness :
    ((Option.none : Option String).getD "" = "") ∧
    (connectToLive Option.none initialRes =
      { initialRes with errorMsg := some "API Key faltante." } ∧
    (connectToLive Option.none initialRes).errorMsg = some "API Key faltante." ∧
    (connectToLive Option.none initialRes).sessionHandle = false ∧
    (connectToLive Option.none initialRes).micStreamLive = false ∧
    (connectToLive Option.none initialRes).inputCtxOpen = false ∧
    (connectToLive Option.none initialRes).outputCtxOpen = false ∧
    (connectToLive Option.none initialRes).videoStreamLive = false ∧
    (connectToLive Option.none initialRes).frameTimer = false) :=
  ⟨rfl, start_without_key_clean_failure Option.none rfl⟩

/-- C3 is refuted by the code: after a successful `start()` followed
by `stop()`/`cleanup()`, every modelled resource is released EXCEPT
the microphone capture stream — `cleanup` closes both audio contexts,
drops the session handle, clears the frame timer and stops the video
stream, but no code path ever stops the tracks of the `micStream`
acquired on line 243, so the capture device stays acquired.  Calling
`cleanup` twice, or before `start`, is harmless. -/
theorem cleanup_leaks_mic_stream :
    (connectToLive (some "key") initialRes).micStreamLive = true ∧
    (cleanupRes (connectToLive (some "key") initialRes)).micStreamLive = true ∧
    (cleanupRes (connectToLive (some "key") initialRes)).sessionHandle = false ∧
    (cleanupRes (connectToLive (some "key") initialRes)).inputCtxOpen = false ∧
    (cleanupRes (connectToLive (some "key") initialRes)).outputCtxOpen = false ∧
    (cleanupRes (connectToLive (some "key") initialRes)).frameTimer = false ∧
    (cleanupRes (connectToLive (some "key") initialRes)).videoStreamLive = false ∧
    cleanupRes (cleanupRes (connectToLive (some "key") initialRes)) =
      cleanupRes (connectToLive (some "key") initialRes) ∧
    cleanupRes initialRes = initialRes := by
  refine ⟨?_, ?_, ?_, ?_, ?_, ?_, ?_, ?_, ?_⟩ <;> decide

/-! ## Mute guard (lines 294-299 and 533-542) -/

/-- The mute-relevant state.  `isMutedState` is the React `isMuted`
state driving the UI.  `capturedIsMuted` models the value of the
`isMuted` binding closed over by `processor.onaudioprocess`: the
handler is installed once, inside the `onopen` callback created by the
`connectToLive` invocation, and a JavaScript closure captures the
`const isMuted` of that render — later `setIsMuted` calls produce new
bindings in new renders and never update the captured one.  (The file
itself documents this hazard: `isSleepModeRef` exists, per the comment
on lines 27-28, precisely "to access inside callbacks without stale
closures" — no such ref exists for `isMuted`.) -/
structure MuteModel where
  isMutedState : Bool
  capturedIsMuted : Option Bool
deriving DecidableEq, Repr

/-- Embeds `setIsMuted(!isMuted)` (line 535): flips the React state
only; the closure-captured value is untouched. -/
def toggleMute (s : MuteModel) : MuteModel :=
  { s with isMutedState := !s.isMutedState }

/-- Embeds the installation of `processor.onaudioprocess` inside
`onopen` (line 294): the handler captures the `isMuted` value of the
render in which `connectToLive` ran. -/
def connectMute (s : MuteModel) : MuteModel :=
  { s with capturedIsMuted := some s.isMutedState }

/-- Embeds `processor.onaudioprocess` (lines 294-299): a captured
audio block is encoded and sent unless the captured `isMuted` is true
(`if (isMuted) return;`); before the handler is installed nothing is
sent. -/
def audioBlockSent (s : MuteModel) : Bool :=
  match s.capturedIsMuted with
  | Option.none => false
  | some m => !m

/-- C6 is refuted by the code: start a session with `isMuted = false`,
then toggle mute — the muted flag is set, yet the next captured audio
block is still sent, because the `onaudioprocess` guard reads the
stale closure-captured value; in general toggling mute never changes
whether blocks are sent. -/
theorem mute_toggle_does_not_suppress :
    (toggleMute (connectMute ⟨false, Option.none⟩)).isMutedState = true ∧
    audioBlockSent (toggleMute (connectMute ⟨false, Option.none⟩)) = true ∧
    (∀ s : MuteModel, audioBlockSent (toggleMute s) = audioBlockSent s) :=
  ⟨rfl, rfl, fun _ => rfl⟩

end Aura
